import Mathlib

/-!
Shallow embedding of `src/host_list.py` (Arista host-list script).

The script queries a leaf switch for its MAC address table, IP interfaces,
ARP table and VLAN database, partitions the learned MAC addresses into
locally-routed and remotely-routed sets, resolves each MAC to IP addresses
via the appropriate ARP table (leaf ARP for local VLANs, per-VLAN router
ARP for the rest), and writes two report files: one line per unresolved
MAC, and one line per resolved IP with its DNS name or a failure marker.

Python dicts are modelled as association lists with unique keys kept in
insertion order (`dictInsert` updates an existing key in place, matching
CPython semantics). Python exceptions from device queries are modelled
with `Except`; the DNS resolver is modelled as `String → Option String`.
String operations are defined over the underlying character lists so that
everything evaluates by kernel reduction.
-/

namespace HostList

/-- True when the pattern occurs as a contiguous sublist. -/
def hasSub (pat : List Char) : List Char → Bool
  | [] => pat.isPrefixOf []
  | c :: t => pat.isPrefixOf (c :: t) || hasSub pat t

/-- True when `pat` occurs as a substring of `s`. This embeds the regexes
of the form having a negative lookahead at each position, which accept
exactly the strings avoiding the given substrings. -/
def containsSub (pat s : String) : Bool :=
  hasSub pat.data s.data

/-- Splitting a character list at every occurrence of a separator,
preserving empty pieces, as Python `str.split(sep)` does for a one
character separator. -/
def splitAux (sep : Char) : List Char → List Char → List (List Char)
  | [], acc => [acc.reverse]
  | c :: t, acc => if c = sep then acc.reverse :: splitAux sep t [] else splitAux sep t (c :: acc)

/-- Python `s.split(sep)` for a single-character separator. -/
def splitOnChar (sep : Char) (s : String) : List String :=
  (splitAux sep s.data []).map String.mk

/-- One row of `show mac address-table` / `unicastTable.tableEntries`. -/
structure MacEntry where
  macAddress : String
  vlanId : Nat
  intf : String
  entryType : String
  deriving Repr, DecidableEq

/-- One row of `show ip interface`: interface name paired with its
`lineProtocolStatus` string. -/
structure IntfRow where
  name : String
  lineProtocolStatus : String
  deriving Repr, DecidableEq

/-- The leaf data consumed by the script: `show mac address-table` rows,
`show ip interface` rows, `show arp` neighbor rows (address, hwAddress),
and the keys of `show vlan brief`. -/
structure LeafData where
  tableEntries : List MacEntry
  intfRows : List IntfRow
  arpRows : List (String × String)
  vlanKeys : List String
  deriving Repr

/-- Decimal-digit test embedding the `\d` of the regexes. -/
def digitStr (s : String) : Bool :=
  s.data.all Char.isDigit

/-- Embeds the regex on line 81, `^Vlan\d{1,4}(?<!409(3|4))$`: the string
is `Vlan` followed by one to four digits, and the digits are not `4093`
or `4094`. -/
def vlanIntfOk (s : String) : Bool :=
  "Vlan".data.isPrefixOf s.data &&
    (let d := String.mk (s.data.drop 4)
     digitStr d && 1 ≤ d.length && d.length ≤ 4 && d != "4093" && d != "4094")

/-- Embeds the regex on line 92, `^(?!1$)\d{1,4}(?<!409(3|4))$`: one to
four digits, not the string `1`, not ending in `4093` or `4094` (for
strings of at most four characters that means not being those strings). -/
def vlanKeyOk (s : String) : Bool :=
  digitStr s && 1 ≤ s.length && s.length ≤ 4 && s != "1" && s != "4093" && s != "4094"

/-- Lines 67-73: MAC table rows whose interface contains neither `Vx` nor
`Ro` and whose entry type does not contain `st`. -/
def macadds (d : LeafData) : List MacEntry :=
  d.tableEntries.filter fun m =>
    !containsSub "Vx" m.intf && !containsSub "Ro" m.intf && !containsSub "st" m.entryType

/-- Lines 78-83: names of VLAN layer-3 interfaces that match the regex and
whose line protocol is up. -/
def vlan_ints (d : LeafData) : List String :=
  (d.intfRows.filter fun r => vlanIntfOk r.name && r.lineProtocolStatus == "up").map
    (·.name)

/-- Lines 88-93: VLAN-database keys passing the regex (the Locality
mapping domain of the spec). -/
def leaf_vlans (d : LeafData) : List String :=
  d.vlanKeys.filter vlanKeyOk

/-- Lines 96-102: leaf VLANs that have a matching active layer-3
interface. -/
def local_vlans (d : LeafData) : List String :=
  (leaf_vlans d).filter fun v => (vlan_ints d).contains ("Vlan" ++ v)

/-- Lines 104-110: leaf VLANs with no matching active layer-3 interface,
queried on the router later. -/
def router_vlans (d : LeafData) : List String :=
  (leaf_vlans d).filter fun v => !(vlan_ints d).contains ("Vlan" ++ v)

/-- Line 116/127: the expression
`'{}{}.{}{}.{}{}'.format(*mac['macAddress'].split(':'))`. Splits on `:`
and regroups the first six groups in pairs separated by dots. With fewer
than six groups Python raises IndexError, modelled as `none`; extra
groups are ignored by `str.format`, as here. -/
def macFormat (s : String) : Option String :=
  let g := splitOnChar ':' s
  if 6 ≤ g.length then
    some (g.getD 0 "" ++ g.getD 1 "" ++ "." ++ g.getD 2 "" ++ g.getD 3 "" ++ "."
      ++ g.getD 4 "" ++ g.getD 5 "")
  else
    none

/-- Value attached to a formatted MAC key on lines 117-119/128-130. -/
structure MacInfo where
  intf : String
  vlanId : Nat
  deriving Repr, DecidableEq

/-- CPython dict assignment `d[k] = v`: updates the value of an existing
key in place, otherwise appends the pair. -/
def dictInsert : List (String × α) → String → α → List (String × α)
  | [], k, v => [(k, v)]
  | (k₀, v₀) :: t, k, v =>
    if k₀ = k then (k₀, v) :: t else (k₀, v₀) :: dictInsert t k v

/-- Builds a dict from pairs in order, later pairs overwriting earlier
values of the same key (dict-comprehension semantics). -/
def buildDict (rows : List (String × α)) : List (String × α) :=
  rows.foldl (fun d p => dictInsert d p.1 p.2) []

/-- Value of a key in a dict. -/
def dictFind (d : List (String × α)) (k : String) : Option α :=
  (d.find? fun p => p.1 = k).map (·.2)

/-- The values view `d.values()`. -/
def dictValues (d : List (String × α)) : List α :=
  d.map (·.2)

/-- The entries feeding `local_macs` (lines 115-124): filtered MAC rows
whose `Vlan{vlanId}` is among the active layer-3 interfaces. -/
def localSel (d : LeafData) : List MacEntry :=
  (macadds d).filter fun m => (vlan_ints d).contains ("Vlan" ++ toString m.vlanId)

/-- The entries feeding `routed_macs` (lines 126-135): filtered MAC rows
whose `Vlan{vlanId}` is not among the active layer-3 interfaces. -/
def remoteSel (d : LeafData) : List MacEntry :=
  (macadds d).filter fun m => !(vlan_ints d).contains ("Vlan" ++ toString m.vlanId)

/-- Lines 115-124: dict from formatted MAC to interface and VLAN for the
locally-routed selection. A row whose MAC lacks six colon groups raises
IndexError in the source; such rows contribute nothing here. -/
def local_macs (d : LeafData) : List (String × MacInfo) :=
  buildDict ((localSel d).filterMap fun m =>
    (macFormat m.macAddress).map fun k => (k, MacInfo.mk m.intf m.vlanId))

/-- Lines 126-135: dict from formatted MAC to interface and VLAN for the
remotely-routed selection. -/
def routed_macs (d : LeafData) : List (String × MacInfo) :=
  buildDict ((remoteSel d).filterMap fun m =>
    (macFormat m.macAddress).map fun k => (k, MacInfo.mk m.intf m.vlanId))

/-- Lines 141-144: leaf ARP dict from address to hwAddress. -/
def arp_dict (d : LeafData) : List (String × String) :=
  buildDict d.arpRows

/-- The line written for a non-resolving MAC on lines 152-154. -/
def noipLine (mac : String) (info : MacInfo) : String :=
  "MAC Address: " ++ mac ++ " in VLAN: " ++ toString info.vlanId ++ " on port "
    ++ info.intf ++ " does not resolve to an IP address" ++ "\n"

/-- One iteration of the loops on lines 150-157 and 173-180: either one
noip line (first component) or the list of all ARP addresses whose value
is this MAC (second component). -/
def resolveStep (arp : List (String × String)) (mac : String) (info : MacInfo) :
    List String × List String :=
  if !(dictValues arp).contains mac then
    ([noipLine mac info], [])
  else
    ([], (arp.filter fun q => q.2 == mac).map (·.1))

/-- The loops on lines 150-157 and 173-180 over one partition dict:
accumulates the noip lines written and the IP addresses appended to
`ip_addrs`, in iteration order. -/
def resolveLoop (part : List (String × MacInfo)) (arp : List (String × String)) :
    List String × List String :=
  part.foldl
    (fun acc p =>
      if !(dictValues arp).contains p.1 then
        (acc.1 ++ [noipLine p.1 p.2], acc.2)
      else
        (acc.1, acc.2 ++ (arp.filter fun q => q.2 == p.1).map (·.1)))
    ([], [])

/-- Failures of `pyeapi` `run_commands` (section 6 of the design). -/
inductive DevErr where
  | connectionError
  | commandError
  deriving Repr, DecidableEq

/-- One VRF block of `show arp vrf all interface vlan{v}`. -/
structure VrfArp where
  dynamicEntries : Nat
  neighbors : List (String × String)
  deriving Repr

/-- Lines 164-167: for each VRF with a positive dynamic-entry count, write
every neighbor row into the aggregate dict. -/
def applyVrfs (vrfs : List VrfArp) (d : List (String × String)) : List (String × String) :=
  vrfs.foldl
    (fun d vrf =>
      if 0 < vrf.dynamicEntries then
        vrf.neighbors.foldl (fun d p => dictInsert d p.1 p.2) d
      else d)
    d

/-- Lines 162-167: the router ARP loop. `q v` models
`router.run_commands` for VLAN `v`; a raised error propagates and ends
the loop, discarding nothing already written into the dict but querying
no further VLAN. -/
def routerArpLoop (q : String → Except DevErr (List VrfArp)) :
    List String → List (String × String) → Except DevErr (List (String × String))
  | [], d => .ok d
  | v :: vs, d =>
    match q v with
    | .error e => .error e
    | .ok vrfs => routerArpLoop q vs (applyVrfs vrfs d)

/-- Numeric value of a decimal digit string (the octet parse inside
`ipaddress.IPv4Address`; malformed addresses raise in the source and are
not modelled). -/
def digitsVal (s : String) : Nat :=
  s.data.foldl (fun a c => a * 10 + (c.toNat - 48)) 0

/-- Numeric value of a dotted-quad address, the sort key
`ipaddress.IPv4Address` provides on line 184. -/
def ipKey (s : String) : Nat :=
  (splitOnChar '.' s).foldl (fun a p => a * 256 + digitsVal p) 0

/-- Comparison by numeric address value. -/
def ipLe (a b : String) : Prop :=
  ipKey a ≤ ipKey b

instance : DecidableRel ipLe := fun _ _ => Nat.decLe _ _

instance : IsTotal String ipLe := ⟨fun a b => Nat.le_total (ipKey a) (ipKey b)⟩

instance : IsTrans String ipLe := ⟨fun _ _ _ => Nat.le_trans⟩

/-- Line 184: `sorted(ip_addrs, key=ipaddress.IPv4Address)`, a stable
sort by numeric address value. -/
def sortIps (l : List String) : List String :=
  l.insertionSort ipLe

/-- Lines 188-191: the line written for one IP, name on success, the DNS
failure marker otherwise. -/
def nameLine (resolver : String → Option String) (ip : String) : String :=
  match resolver ip with
  | some n => ip ++ "  " ++ n ++ " \n"
  | none => ip ++ " does not resolve in DNS\n"

/-- Lines 186-191: the output loop of the resolved-name report, one line
per sorted IP. -/
def nameStage (resolver : String → Option String) (ips : List String) : List String :=
  ips.foldl (fun acc ip => acc ++ [nameLine resolver ip]) []

/-- A whole run: the leaf snapshot, the router query function and the DNS
resolver. -/
structure RunInput where
  leaf : LeafData
  routerQ : String → Except DevErr (List VrfArp)
  resolver : String → Option String

/-- Lines 150-191 in program order: the local resolution loop writes its
noip lines, then the router ARP loop runs, then the routed resolution
loop writes its noip lines, then the sorted IPs are named. On success the
result is the pair (noip file lines, ip file lines). On a router query
failure the error carries the two files as written at the abort: the noip
file already holds the local-partition lines, while the ip file is opened
only on line 186, after every query, so it is empty. -/
def runPipeline (inp : RunInput) :
    Except (DevErr × List String × List String) (List String × List String) :=
  let d := inp.leaf
  let lres := resolveLoop (local_macs d) (arp_dict d)
  match routerArpLoop inp.routerQ (router_vlans d) [] with
  | .error e => .error (e, lres.1, [])
  | .ok rad =>
    let rres := resolveLoop (routed_macs d) rad
    .ok (lres.1 ++ rres.1, nameStage inp.resolver (sortIps (lres.2 ++ rres.2)))

/-! Helper lemmas about the embedded operations. -/

theorem mem_dictValues {arp : List (String × α)} {x : α} :
    x ∈ dictValues arp ↔ ∃ p ∈ arp, p.2 = x := by
  simp [dictValues]

theorem contains_dictValues {arp : List (String × String)} {x : String} :
    (dictValues arp).contains x = true ↔ ∃ p ∈ arp, p.2 = x := by
  rw [show ((dictValues arp).contains x = true) ↔ x ∈ dictValues arp by simp]
  exact mem_dictValues

theorem selPartition (d : LeafData) (e : MacEntry) (he : e ∈ macadds d) :
    (e ∈ localSel d ∧ e ∉ remoteSel d) ∨ (e ∈ remoteSel d ∧ e ∉ localSel d) := by
  by_cases h : ("Vlan" ++ toString e.vlanId) ∈ vlan_ints d
  · left
    refine ⟨List.mem_filter.mpr ⟨he, by simp [h]⟩, fun hc => ?_⟩
    have h2 := (List.mem_filter.mp hc).2
    simp [h] at h2
  · right
    refine ⟨List.mem_filter.mpr ⟨he, by simp [h]⟩, fun hc => ?_⟩
    have h2 := (List.mem_filter.mp hc).2
    simp [h] at h2

theorem dictFind_dictInsert (d : List (String × α)) (k : String) (v : α) (x : String) :
    dictFind (dictInsert d k v) x = if x = k then some v else dictFind d x := by
  induction d with
  | nil =>
    simp only [dictInsert, dictFind]
    by_cases h : x = k
    · subst h
      rw [List.find?_cons_of_pos _ (by simp)]
      simp
    · rw [List.find?_cons_of_neg _ (by simp [Ne.symm h])]
      simp [h]
  | cons p t ih =>
    obtain ⟨k₀, v₀⟩ := p
    simp only [dictInsert]
    by_cases hp : k₀ = k
    · rw [if_pos hp]
      simp only [dictFind]
      by_cases h : x = k₀
      · rw [List.find?_cons_of_pos _ (by simp [h.symm]),
          List.find?_cons_of_pos _ (by simp [h.symm]), if_pos (h.trans hp)]
        simp
      · rw [List.find?_cons_of_neg _ (by simp [Ne.symm h]),
          List.find?_cons_of_neg _ (by simp [Ne.symm h]),
          if_neg (fun hc => h (hc.trans hp.symm))]
    · rw [if_neg hp]
      simp only [dictFind] at ih ⊢
      by_cases h : x = k₀
      · rw [List.find?_cons_of_pos _ (by simp [h.symm]),
          List.find?_cons_of_pos _ (by simp [h.symm]),
          if_neg (fun hc => hp (h.symm.trans hc))]
      · rw [List.find?_cons_of_neg _ (by simp [Ne.symm h]),
          List.find?_cons_of_neg _ (by simp [Ne.symm h])]
        exact ih

theorem dictFind_foldl (rows : List (String × α)) (d : List (String × α)) (k : String) :
    dictFind (rows.foldl (fun d p => dictInsert d p.1 p.2) d) k =
      ((rows.reverse.find? fun p => p.1 = k).map (·.2)).or (dictFind d k) := by
  induction rows generalizing d with
  | nil => simp
  | cons r rs ih =>
    rw [List.foldl_cons, ih, List.reverse_cons, List.find?_append]
    cases h : rs.reverse.find? fun p => decide (p.1 = k) with
    | some p => simp [h]
    | none =>
      simp only [h, dictFind_dictInsert, Option.none_or]
      by_cases hk : r.1 = k
      · rw [List.find?_cons_of_pos _ (by simp [hk]), if_pos hk.symm]
        rfl
      · rw [List.find?_cons_of_neg _ (by simp [hk]), if_neg (fun hc => hk hc.symm)]
        rfl

theorem dictFind_buildDict (rows : List (String × α)) (k : String) :
    dictFind (buildDict rows) k = (rows.reverse.find? fun p => p.1 = k).map (·.2) := by
  rw [buildDict, dictFind_foldl]
  simp [dictFind]

theorem mem_keys_dictInsert {d : List (String × α)} {k x : String} {v : α} :
    x ∈ (dictInsert d k v).map (·.1) ↔ x ∈ d.map (·.1) ∨ x = k := by
  induction d with
  | nil => simp [dictInsert]
  | cons p t ih =>
    by_cases hp : p.1 = k
    · subst hp
      simp [dictInsert]
      tauto
    · simp [dictInsert, hp, ih]
      tauto

theorem nodup_keys_dictInsert {d : List (String × α)} {k : String} {v : α}
    (h : (d.map (·.1)).Nodup) : ((dictInsert d k v).map (·.1)).Nodup := by
  induction d with
  | nil => simp [dictInsert]
  | cons p t ih =>
    obtain ⟨k₀, v₀⟩ := p
    simp only [List.map_cons, List.nodup_cons] at h
    by_cases hp : k₀ = k
    · rw [dictInsert, if_pos hp]
      simpa using h
    · rw [dictInsert, if_neg hp]
      simp only [List.map_cons, List.nodup_cons]
      refine ⟨fun hc => ?_, ih h.2⟩
      rcases mem_keys_dictInsert.mp hc with hm | he
      · exact h.1 hm
      · exact hp he

theorem nodup_keys_foldl (rows : List (String × α)) (d : List (String × α))
    (h : (d.map (·.1)).Nodup) :
    ((rows.foldl (fun d p => dictInsert d p.1 p.2) d).map (·.1)).Nodup := by
  induction rows generalizing d with
  | nil => simpa using h
  | cons r rs ih => exact ih _ (nodup_keys_dictInsert h)

theorem nodup_keys_buildDict (rows : List (String × α)) :
    ((buildDict rows).map (·.1)).Nodup :=
  nodup_keys_foldl rows [] (by simp)

theorem resolveLoop_foldl (arp : List (String × String)) (part : List (String × MacInfo))
    (acc : List String × List String) :
    part.foldl
      (fun acc p =>
        if !(dictValues arp).contains p.1 then
          (acc.1 ++ [noipLine p.1 p.2], acc.2)
        else
          (acc.1, acc.2 ++ (arp.filter fun q => q.2 == p.1).map (·.1)))
      acc =
    (acc.1 ++ part.flatMap fun p => (resolveStep arp p.1 p.2).1,
     acc.2 ++ part.flatMap fun p => (resolveStep arp p.1 p.2).2) := by
  induction part generalizing acc with
  | nil => simp
  | cons p ps ih =>
    rw [List.foldl_cons, ih]
    by_cases h : (dictValues arp).contains p.1 = true
    · have hm : p.1 ∈ dictValues arp := by simpa using h
      simp [resolveStep, h, hm]
    · have hm : p.1 ∉ dictValues arp := by simpa using h
      simp only [Bool.not_eq_true] at h
      simp [resolveStep, h, hm]

theorem resolveLoop_decomp (part : List (String × MacInfo)) (arp : List (String × String)) :
    resolveLoop part arp =
      (part.flatMap fun p => (resolveStep arp p.1 p.2).1,
       part.flatMap fun p => (resolveStep arp p.1 p.2).2) := by
  rw [resolveLoop, resolveLoop_foldl]
  simp

theorem resolveStep_pos {arp : List (String × String)} {mac : String} (info : MacInfo)
    (hm : mac ∈ dictValues arp) :
    resolveStep arp mac info = ([], (arp.filter fun q => q.2 == mac).map (·.1)) := by
  simp [resolveStep, hm]

theorem resolveStep_neg {arp : List (String × String)} {mac : String} (info : MacInfo)
    (hm : mac ∉ dictValues arp) :
    resolveStep arp mac info = ([noipLine mac info], []) := by
  simp [resolveStep, hm]

theorem resolveStep_of_noRow (arp : List (String × String)) (mac : String) (info : MacInfo)
    (h : ∀ p ∈ arp, p.2 ≠ mac) :
    resolveStep arp mac info = ([noipLine mac info], []) := by
  refine resolveStep_neg info fun hm => ?_
  rcases mem_dictValues.mp hm with ⟨p, hp, hpm⟩
  exact h p hp hpm

theorem resolveStep_of_row (arp : List (String × String)) (mac : String) (info : MacInfo)
    (h : ∃ p ∈ arp, p.2 = mac) :
    (resolveStep arp mac info).1 = [] ∧ (resolveStep arp mac info).2 ≠ [] := by
  have hm : mac ∈ dictValues arp := mem_dictValues.mpr h
  rcases h with ⟨p, hp, hpm⟩
  rw [resolveStep_pos info hm]
  refine ⟨rfl, ?_⟩
  exact List.ne_nil_of_mem
    (List.mem_map_of_mem _ (List.mem_filter.mpr ⟨hp, by simp [hpm]⟩))

theorem resolveStep_mem_snd (arp : List (String × String)) (mac : String) (info : MacInfo)
    (a : String) :
    a ∈ (resolveStep arp mac info).2 ↔ (a, mac) ∈ arp := by
  by_cases hc : mac ∈ dictValues arp
  · rw [resolveStep_pos info hc]
    constructor
    · intro ha
      rcases List.mem_map.mp ha with ⟨q, hq, rfl⟩
      obtain ⟨qa, qb⟩ := q
      have hmem := List.mem_filter.mp hq
      have h2 : qb = mac := by simpa using hmem.2
      subst h2
      exact hmem.1
    · intro ha
      exact List.mem_map.mpr ⟨(a, mac), List.mem_filter.mpr ⟨ha, by simp⟩, rfl⟩
  · have h : ∀ p ∈ arp, p.2 ≠ mac := fun p hp hpm =>
      hc (mem_dictValues.mpr ⟨p, hp, hpm⟩)
    rw [resolveStep_of_noRow arp mac info h]
    constructor
    · intro ha
      simp at ha
    · intro ha
      exact absurd rfl (h _ ha)

theorem nameStage_foldl (r : String → Option String) (ips : List String) (acc : List String) :
    ips.foldl (fun acc ip => acc ++ [nameLine r ip]) acc = acc ++ ips.map (nameLine r) := by
  induction ips generalizing acc with
  | nil => simp
  | cons ip t ih => simp [ih]

theorem applyVrfs_allZero (vrfs : List VrfArp) (d : List (String × String))
    (h : ∀ x ∈ vrfs, x.dynamicEntries = 0) :
    applyVrfs vrfs d = d := by
  induction vrfs generalizing d with
  | nil => rfl
  | cons x t ih =>
    simp only [applyVrfs, List.foldl_cons] at ih ⊢
    rw [if_neg (by simp [h x (List.mem_cons_self x t)])]
    exact ih d fun y hy => h y (List.mem_cons_of_mem x hy)

/-! Concrete inputs used in witnesses and counterexamples. -/

/-- A dynamic end-host MAC row on VLAN 10. -/
def exEntry : MacEntry := ⟨"aa:bb:cc:00:11:22", 10, "Ethernet1", "dynamic"⟩

/-- Leaf snapshot where VLAN 10 is locally routed and VLAN 20 is not. -/
def exLeaf : LeafData :=
  ⟨[exEntry], [⟨"Vlan10", "up"⟩], [("10.0.10.5", "aabb.cc00.1122")], ["10", "20"]⟩

/-- A dynamic end-host MAC row on VLAN 1, which the VLAN-database regex
excludes from the Locality mapping. -/
def vlan1Entry : MacEntry := ⟨"aa:bb:cc:00:11:22", 1, "Ethernet1", "dynamic"⟩

/-- Leaf snapshot whose MAC table has only the VLAN 1 row. -/
def vlan1Leaf : LeafData := ⟨[vlan1Entry], [⟨"Vlan10", "up"⟩], [], ["1", "10"]⟩

/-- A dynamic end-host MAC row on MLAG peering VLAN 4093. -/
def peerEntry : MacEntry := ⟨"aa:bb:cc:00:11:22", 4093, "Ethernet1", "dynamic"⟩

/-- Leaf snapshot whose MAC table has only the VLAN 4093 row. -/
def peerLeaf : LeafData := ⟨[peerEntry], [⟨"Vlan10", "up"⟩], [], ["10", "4093"]⟩

/-- Router query that raises on VLAN 20 and answers VLAN 30 with one
dynamic neighbor. -/
def failQ : String → Except DevErr (List VrfArp) := fun v =>
  if v = "20" then .error .connectionError
  else .ok [⟨3, [("10.0.30.5", "aabb.cc00.1122")]⟩]

/-- Run input whose leaf has one unresolvable local MAC, one remote VLAN,
and whose router query always raises. -/
def abortInp : RunInput :=
  ⟨⟨[exEntry], [⟨"Vlan10", "up"⟩], [], ["10", "20"]⟩,
   fun _ => .error .connectionError, fun _ => none⟩

/-- Deterministic resolver knowing one address. -/
def exResolver : String → Option String := fun ip =>
  if ip = "10.0.10.5" then some "host-a" else none

/-! Claim theorems. -/

/-- C1: for every MAC key of a partition dict the resolution loop runs one
step (partition keys are unique and the loop is the concatenation of the
per-key steps); a step emits exactly one unresolved noip line and no
address when no ARP row carries the MAC, and no noip line but at least
one address when some row does; the addresses emitted are exactly the ARP
addresses whose row maps to that MAC, all of them collected. -/
theorem resolutionCompleteness :
    (∀ d : LeafData, ((local_macs d).map (·.1)).Nodup ∧ ((routed_macs d).map (·.1)).Nodup) ∧
    (∀ (part : List (String × MacInfo)) (arp : List (String × String)),
      resolveLoop part arp =
        (part.flatMap fun p => (resolveStep arp p.1 p.2).1,
         part.flatMap fun p => (resolveStep arp p.1 p.2).2)) ∧
    (∀ (arp : List (String × String)) (mac : String) (info : MacInfo),
      ((∀ p ∈ arp, p.2 ≠ mac) → resolveStep arp mac info = ([noipLine mac info], [])) ∧
      ((∃ p ∈ arp, p.2 = mac) →
        (resolveStep arp mac info).1 = [] ∧ (resolveStep arp mac info).2 ≠ []) ∧
      (∀ a, a ∈ (resolveStep arp mac info).2 ↔ (a, mac) ∈ arp)) :=
  ⟨fun _ => ⟨nodup_keys_buildDict _, nodup_keys_buildDict _⟩,
   resolveLoop_decomp,
   fun arp mac info =>
    ⟨resolveStep_of_noRow arp mac info,
     resolveStep_of_row arp mac info,
     resolveStep_mem_snd arp mac info⟩⟩

/-- Witness for C1 at a concrete one-row ARP table and an absent MAC. -/
theorem resolutionCompletenessWitness :
    resolveStep [("10.0.10.5", "aabb.cc00.1122")] "dddd.dddd.dddd" ⟨"Ethernet1", 10⟩
      = ([noipLine "dddd.dddd.dddd" ⟨"Ethernet1", 10⟩], []) :=
  (resolutionCompleteness.2.2 [("10.0.10.5", "aabb.cc00.1122")] "dddd.dddd.dddd"
    ⟨"Ethernet1", 10⟩).1 (by decide)

/-- C2 counterexample: with `failQ`, VLAN 20 raises and VLAN 30 answers
one dynamic neighbor, yet the router ARP loop over [20, 30] returns the
error: the failure aborts the remaining queries, and VLAN 30 contributes
nothing, so per-VLAN partial-result tolerance is absent. -/
theorem remoteToleranceCex :
    failQ "30" = .ok [⟨3, [("10.0.30.5", "aabb.cc00.1122")]⟩] ∧
      routerArpLoop failQ ["20", "30"] [] = .error .connectionError :=
  ⟨rfl, rfl⟩

/-- C2 amended: a VLAN whose query succeeds with only zero-dynamic-entry
VRF blocks contributes nothing and the remaining VLANs are still
processed; but a VLAN whose query raises ends the loop with that error,
so no later VLAN is queried. -/
theorem remoteToleranceAmended (q : String → Except DevErr (List VrfArp)) (v : String)
    (vs : List String) (d : List (String × String)) :
    (∀ vrfs, q v = .ok vrfs → (∀ x ∈ vrfs, x.dynamicEntries = 0) →
      routerArpLoop q (v :: vs) d = routerArpLoop q vs d) ∧
    (∀ e, q v = .error e → routerArpLoop q (v :: vs) d = .error e) := by
  constructor
  · intro vrfs hok hz
    rw [routerArpLoop, hok]
    show routerArpLoop q vs (applyVrfs vrfs d) = routerArpLoop q vs d
    rw [applyVrfs_allZero vrfs d hz]
  · intro e herr
    rw [routerArpLoop, herr]

/-- Witness for C2 amended at `failQ`. -/
theorem remoteToleranceAmendedWitness :
    routerArpLoop failQ ("20" :: ["30"]) [] = Except.error DevErr.connectionError :=
  (remoteToleranceAmended failQ "20" ["30"] []).2 DevErr.connectionError rfl

/-- C3 counterexample: the VLAN 1 row survives the MAC-table filter while
VLAN 1 is excluded from the Locality mapping, yet the row is not dropped:
it lands in the remote selection and its MAC keys the routed partition
dict. -/
theorem dropRuleCex :
    leaf_vlans vlan1Leaf = ["10"] ∧ remoteSel vlan1Leaf = [vlan1Entry] ∧
      routed_macs vlan1Leaf = [("aabb.cc00.1122", ⟨"Ethernet1", 1⟩)] := by
  decide

/-- C3 amended: a filtered entry whose VLAN is absent from the Locality
mapping is not dropped; it still lands in exactly one partition, decided
solely by whether an active layer-3 interface named for its VLAN
exists. -/
theorem dropRuleAmended (d : LeafData) (e : MacEntry) (he : e ∈ macadds d)
    (hv : toString e.vlanId ∉ leaf_vlans d) :
    (e ∈ localSel d ∧ e ∉ remoteSel d) ∨ (e ∈ remoteSel d ∧ e ∉ localSel d) :=
  selPartition d e he

/-- Witness for C3 amended at the VLAN 1 row. -/
theorem dropRuleAmendedWitness :
    (vlan1Entry ∈ localSel vlan1Leaf ∧ vlan1Entry ∉ remoteSel vlan1Leaf) ∨
      (vlan1Entry ∈ remoteSel vlan1Leaf ∧ vlan1Entry ∉ localSel vlan1Leaf) :=
  dropRuleAmended vlan1Leaf vlan1Entry (by decide) (by decide)

/-- C4: a filtered entry whose VLAN is in the Locality mapping lands in
exactly one of the two partitions. -/
theorem partitionTotality (d : LeafData) (e : MacEntry) (he : e ∈ macadds d)
    (hv : toString e.vlanId ∈ leaf_vlans d) :
    (e ∈ localSel d ∧ e ∉ remoteSel d) ∨ (e ∈ remoteSel d ∧ e ∉ localSel d) :=
  selPartition d e he

/-- Witness for C4 at the VLAN 10 row of `exLeaf`. -/
theorem partitionTotalityWitness :
    (exEntry ∈ localSel exLeaf ∧ exEntry ∉ remoteSel exLeaf) ∨
      (exEntry ∈ remoteSel exLeaf ∧ exEntry ∉ localSel exLeaf) :=
  partitionTotality exLeaf exEntry (by decide) (by decide)

/-- C5 counterexample: the sort is by numeric address value, so
10.0.0.20 precedes 10.0.0.100; the order the claim names, with
10.0.0.100 before 10.0.0.20, is not produced. -/
theorem sortOrderCex :
    sortIps ["10.0.0.20", "10.0.0.3", "10.0.0.3", "10.0.0.100"]
        = ["10.0.0.3", "10.0.0.3", "10.0.0.20", "10.0.0.100"] ∧
      sortIps ["10.0.0.20", "10.0.0.3", "10.0.0.3", "10.0.0.100"]
        ≠ ["10.0.0.3", "10.0.0.3", "10.0.0.100", "10.0.0.20"] := by
  decide

/-- C5 amended: the sorted sequence is ascending in numeric address
value, is a permutation of the input with every multiplicity preserved
(duplicates kept), and the example input sorts to
[10.0.0.3, 10.0.0.3, 10.0.0.20, 10.0.0.100]. -/
theorem sortOrderAmended (l : List String) :
    List.Sorted ipLe (sortIps l) ∧ (sortIps l).Perm l ∧
      (∀ a : String, (sortIps l).count a = l.count a) ∧
      sortIps ["10.0.0.20", "10.0.0.3", "10.0.0.3", "10.0.0.100"]
        = ["10.0.0.3", "10.0.0.3", "10.0.0.20", "10.0.0.100"] :=
  ⟨List.sorted_insertionSort ipLe l,
   List.perm_insertionSort ipLe l,
   fun a => (List.perm_insertionSort ipLe l).count_eq a,
   by decide⟩

/-- C6 counterexample: the colon form of an address normalizes to the
dotted form, but the dotted form itself raises (fewer than six colon
groups), so normalization is not independent of the input format. -/
theorem macNormCex :
    macFormat "aa:bb:cc:00:11:22" = some "aabb.cc00.1122" ∧
      macFormat "aabb.cc00.1122" = none := by
  decide

/-- C6 amended: normalization is defined only for colon-delimited input;
whenever the input splits into exactly six colon groups, the canonical
form is the six groups regrouped in pairs separated by dots. Other
representations, such as the dot-grouped form, raise instead of
normalizing. -/
theorem macNormAmended (s a b c d e f : String)
    (h : splitOnChar ':' s = [a, b, c, d, e, f]) :
    macFormat s = some (a ++ b ++ "." ++ c ++ d ++ "." ++ e ++ f) := by
  simp [macFormat, h]

/-- Witness for C6 amended at the colon form. -/
theorem macNormAmendedWitness :
    macFormat "aa:bb:cc:00:11:22"
      = some ("aa" ++ "bb" ++ "." ++ "cc" ++ "00" ++ "." ++ "11" ++ "22") :=
  macNormAmended "aa:bb:cc:00:11:22" "aa" "bb" "cc" "00" "11" "22" (by decide)

/-- C7 counterexample: a filtered row on peering VLAN 4093 reaches the
remote partition (its formatted MAC keys `routed_macs`), so VLANs outside
[2,4092] do reach a partition. -/
theorem vlanRangeCex :
    remoteSel peerLeaf = [peerEntry] ∧ peerEntry.vlanId = 4093 ∧
      routed_macs peerLeaf = [("aabb.cc00.1122", ⟨"Ethernet1", 4093⟩)] := by
  decide

/-- C7 amended: the VLAN exclusions hold for the queried VLAN lists, not
for the partitions: every VLAN in the Locality mapping (hence in the
local and router VLAN lists) is a one-to-four digit string other than 1,
4093 and 4094, while partition entries are not range-checked, as the
counterexample shows. -/
theorem vlanRangeAmended (d : LeafData) (v : String) :
    (v ∈ leaf_vlans d →
      digitStr v = true ∧ 1 ≤ v.length ∧ v.length ≤ 4 ∧
        v ≠ "1" ∧ v ≠ "4093" ∧ v ≠ "4094") ∧
    (v ∈ local_vlans d → v ∈ leaf_vlans d) ∧
    (v ∈ router_vlans d → v ∈ leaf_vlans d) := by
  refine ⟨fun h => ?_, fun h => (List.mem_filter.mp h).1, fun h => (List.mem_filter.mp h).1⟩
  have h2 := (List.mem_filter.mp h).2
  simp only [vlanKeyOk, Bool.and_eq_true, decide_eq_true_eq, bne_iff_ne] at h2
  tauto

/-- Witness for C7 amended at VLAN 10 of `peerLeaf`. -/
theorem vlanRangeAmendedWitness :
    digitStr "10" = true ∧ 1 ≤ "10".length ∧ "10".length ≤ 4 ∧
      "10" ≠ "1" ∧ "10" ≠ "4093" ∧ "10" ≠ "4094" :=
  (vlanRangeAmended peerLeaf "10").1 (by decide)

/-- C8: the name stage writes exactly one line per sorted address, in
order; the line carries the resolved name on resolver success and the
DNS failure marker on any resolver failure. -/
theorem nameStageTotal (resolver : String → Option String) (ips : List String) :
    nameStage resolver ips = ips.map (nameLine resolver) ∧
    (nameStage resolver ips).length = ips.length ∧
    (∀ ip n, resolver ip = some n → nameLine resolver ip = ip ++ "  " ++ n ++ " \n") ∧
    (∀ ip, resolver ip = none →
      nameLine resolver ip = ip ++ " does not resolve in DNS\n") := by
  have hmap : nameStage resolver ips = ips.map (nameLine resolver) := by
    rw [nameStage, nameStage_foldl]
    simp
  refine ⟨hmap, by rw [hmap]; simp, fun ip n h => by simp [nameLine, h],
    fun ip h => by simp [nameLine, h]⟩

/-- Witness for C8 at the deterministic resolver. -/
theorem nameStageTotalWitness :
    nameLine exResolver "10.0.10.5" = "10.0.10.5" ++ "  " ++ "host-a" ++ " \n" :=
  (nameStageTotal exResolver ["10.0.10.5"]).2.2.1 "10.0.10.5" "host-a" (by decide)

/-- C9 counterexample: in `abortInp` the local partition has one
unresolvable MAC and the router query raises; at the abort the noip file
already holds that unresolved line, so the abort is not atomic. -/
theorem abortCex :
    runPipeline abortInp =
      .error (DevErr.connectionError,
        [noipLine "aabb.cc00.1122" ⟨"Ethernet1", 10⟩], []) :=
  rfl

/-- C9 amended: when a router query raises, the run aborts before any
resolved-name line is written (the ip file is still empty), but after
the local partition resolution, whose unresolved lines are already in
the noip file. -/
theorem abortAmended (inp : RunInput) (e : DevErr)
    (h : routerArpLoop inp.routerQ (router_vlans inp.leaf) [] = .error e) :
    runPipeline inp =
      .error (e, (resolveLoop (local_macs inp.leaf) (arp_dict inp.leaf)).1, []) := by
  simp only [runPipeline]
  rw [h]

/-- Witness for C9 amended at `abortInp`. -/
theorem abortAmendedWitness :
    runPipeline abortInp =
      .error (DevErr.connectionError,
        (resolveLoop (local_macs abortInp.leaf) (arp_dict abortInp.leaf)).1, []) :=
  abortAmended abortInp DevErr.connectionError rfl

/-- C10: the ARP index maps each address to the hwAddress of the last row
bearing that address; concretely, when the only row for one MAC shares
its address with a later row for another MAC, the first MAC is absent
from the index values and its resolution step emits the unresolved
line. -/
theorem arpLastWriteWins :
    (∀ (d : LeafData) (k : String),
      dictFind (arp_dict d) k = (d.arpRows.reverse.find? fun p => p.1 = k).map (·.2)) ∧
    dictValues (buildDict [("10.0.0.5", "aaaa.aaaa.aaaa"), ("10.0.0.5", "bbbb.bbbb.bbbb")])
        = ["bbbb.bbbb.bbbb"] ∧
    resolveStep (buildDict [("10.0.0.5", "aaaa.aaaa.aaaa"), ("10.0.0.5", "bbbb.bbbb.bbbb")])
        "aaaa.aaaa.aaaa" ⟨"Ethernet1", 10⟩
      = ([noipLine "aaaa.aaaa.aaaa" ⟨"Ethernet1", 10⟩], []) := by
  refine ⟨fun d k => ?_, by decide, by decide⟩
  rw [arp_dict, dictFind_buildDict]

end HostList
